import Mathlib

/-!
Shallow embedding of `src/core-addon/DataCollection.js` from the
mozilla-extensions/ion-core-addon repository.

The module is a stateless ping-composition layer: it validates the Rally
(participant) id, selects an encryption key from the routing namespace,
shapes the payload, and hands the assembled ping to the host primitive
`browser.firefoxPrivilegedApi.submitEncryptedPing`.

Modelling choices:
- JavaScript values that flow through the untyped parameters (the Rally id,
  the study id / namespace) are modelled by `JSValue`, with explicit
  truthiness (`falsy`) and `typeof`-is-string checks mirroring
  `if (!rallyId || typeof rallyId != "string")`.
- A JS object is modelled as an association list (`JSObj`), with property
  read `objGet` (first binding wins, as JS keys are unique) and property
  assignment `objSet` (overwrite in place when the key exists, append
  otherwise, mirroring JS insertion-order semantics).
- The external submission primitive is not part of this module; its outcome
  is a boolean parameter `submitOk`.  A run of a send operation is recorded
  as a `SendResult`: the error propagated to the caller (if any), the list
  of calls made to the external primitive, and the console log entries.
-/

/-- JavaScript value flowing through the untyped parameters of the module. -/
inductive JSValue where
  | str (s : String)
  | num (n : Int)
  | bool (b : Bool)
  | null
  | undef
deriving DecidableEq, Repr

/-- JS truthiness: `!v` is true exactly when `v` is falsy. -/
def JSValue.falsy : JSValue → Bool
  | .str s => s == ""
  | .num n => n == 0
  | .bool b => !b
  | .null => true
  | .undef => true

/-- Test for `typeof v == "string"`. -/
def JSValue.isString : JSValue → Bool
  | .str _ => true
  | _ => false

/-- String interpolation of a JS value, as in a template literal. -/
def JSValue.display : JSValue → String
  | .str s => s
  | .num n => toString n
  | .bool b => if b then "true" else "false"
  | .null => "null"
  | .undef => "undefined"

/-- JSON Web Key record as used by the module: crv/kty/x/y and optional kid. -/
structure JWK where
  crv : String
  kid : Option String
  kty : String
  x : String
  y : String
deriving DecidableEq, Repr

/-- Source constant `CORE_ENCRYPTION_KEY_ID`. -/
def CORE_ENCRYPTION_KEY_ID : String := "core"

/-- Source constant `CORE_ENCRYPTION_JWK`. -/
def CORE_ENCRYPTION_JWK : JWK :=
  { crv := "P-256"
    kid := some "core"
    kty := "EC"
    x := "muvXFcGjbk2uZCCa8ycoH8hVxeDCGPQ9Ed2-QHlTtuc"
    y := "xrLUev8_yUrSFAlabnHInvU4JKc6Ew3YXaaoDloQxw8" }

/-- Bogus key used by `_sendEmptyPing` for non-core namespaces (an object
literal in the source, named here for reference). -/
def DISCARD_ENCRYPTION_JWK : JWK :=
  { crv := "P-256"
    kid := none
    kty := "EC"
    x := "XLkI3NaY3-AF2nRMspC63BT1u0Y3moXYSfss7VuQ0mk"
    y := "SB0KnIW-pqk85OIEYZenoNkEyOOp5GeWQhS1KeRtEUE" }

/-- JS object with string keys, as an insertion-ordered association list. -/
abbrev JSObj (A : Type) : Type := List (String × A)

/-- Property read `m[k]`: first binding wins (JS object keys are unique). -/
def objGet {A : Type} : JSObj A → String → Option A
  | [], _ => none
  | (k', v) :: m, k => if k = k' then some v else objGet m k

/-- Membership test, as in JS `k in m`. -/
def hasKey {A : Type} (m : JSObj A) (k : String) : Bool :=
  (objGet m k).isSome

/-- Property assignment `m[k] = v`: overwrite the existing binding in place
when the key exists (JS keeps the original insertion position), append
otherwise. -/
def objSet {A : Type} (m : JSObj A) (k : String) (v : A) : JSObj A :=
  if hasKey m k then m.map fun p => if p.1 = k then (p.1, v) else p
  else m ++ [(k, v)]

/-- Value of one answer in the demographic-survey data object: a scalar
answer, or (for "race") an array of selected category strings. -/
inductive DemoAnswer where
  | scalar (s : String)
  | multi (l : List String)
deriving DecidableEq, Repr

/-- Computed-property-key coercion: `{ [v]: true }` stringifies `v`; a JS
array stringifies as its comma-joined elements. -/
def DemoAnswer.toKey : DemoAnswer → String
  | .scalar s => s
  | .multi l => String.intercalate "," l

/-- Nested boolean-valued map, such as `{ "25-34": true }` or the races map. -/
abbrev SubMap : Type := JSObj Bool

/-- Ping payload: a JS object whose values are nested boolean-valued maps
(the empty payload is `[]`). -/
abbrev Payload : Type := JSObj SubMap

/-- Options record handed to `submitEncryptedPing`, with the field names of
the source (the spec calls `addPioneerId` / `overridePioneerId` the
participant-id fields `addParticipantId` / `overrideParticipantId`). -/
structure PingOptions where
  studyName : JSValue
  addPioneerId : Bool
  overridePioneerId : JSValue
  encryptionKeyId : String
  publicKey : JWK
  schemaName : String
  schemaVersion : Nat
  schemaNamespace : JSValue
deriving DecidableEq, Repr

/-- One invocation of `browser.firefoxPrivilegedApi.submitEncryptedPing`. -/
structure PingCall where
  pingType : String
  payload : Payload
  options : PingOptions
deriving DecidableEq, Repr

/-- Console log entry emitted by `sendPing`'s then/catch handlers. -/
inductive LogEntry where
  | debug (options : PingOptions) (payload : Payload)
  | error
deriving DecidableEq, Repr

/-- Observable outcome of one send operation: the error thrown to the caller
(if any), the calls made to the external primitive, and the log entries. -/
structure SendResult where
  thrown : Option String
  calls : List PingCall
  logs : List LogEntry
deriving DecidableEq, Repr

/-- Embedding of `DataCollection.sendPing`: validate the Rally id, build the
options record, invoke the external primitive once, log the outcome and
swallow any submission failure.  `submitOk` is the outcome reported by the
external primitive. -/
def sendPing (submitOk : Bool) (rallyId : JSValue) (payloadType : String)
    (payload : Payload) (ns : JSValue) (keyId : String) (key : JWK) :
    SendResult :=
  if rallyId.falsy || !rallyId.isString then
    { thrown := some ("DataCollection.sendPing - invalid Rally id " ++ rallyId.display)
      calls := []
      logs := [] }
  else
    let options : PingOptions :=
      { studyName := ns
        addPioneerId := true
        overridePioneerId := rallyId
        encryptionKeyId := keyId
        publicKey := key
        schemaName := payloadType
        schemaVersion := 1
        schemaNamespace := ns }
    { thrown := none
      calls := [{ pingType := "pioneer-study", payload := payload, options := options }]
      logs := [if submitOk then LogEntry.debug options payload else LogEntry.error] }

/-- Embedding of `DataCollection._sendEmptyPing`: select the encryption key
from the namespace (core key for `"pioneer-core"`, discard key otherwise)
and send an empty payload through `sendPing`. -/
def sendEmptyPing (submitOk : Bool) (rallyId : JSValue) (payloadType : String)
    (ns : JSValue) : SendResult :=
  let keyPair : String × JWK :=
    if ns = JSValue.str "pioneer-core" then (CORE_ENCRYPTION_KEY_ID, CORE_ENCRYPTION_JWK)
    else ("discarded", DISCARD_ENCRYPTION_JWK)
  sendPing submitOk rallyId payloadType [] ns keyPair.1 keyPair.2

/-- Embedding of `DataCollection.sendEnrollmentPing`: route to the study id
when one was provided (strictly `!== undefined`), else to `"pioneer-core"`. -/
def sendEnrollmentPing (submitOk : Bool) (rallyId : JSValue)
    (studyAddonId : JSValue) : SendResult :=
  if studyAddonId ≠ JSValue.undef then
    sendEmptyPing submitOk rallyId "pioneer-enrollment" studyAddonId
  else
    sendEmptyPing submitOk rallyId "pioneer-enrollment" (JSValue.str "pioneer-core")

/-- Embedding of `DataCollection.sendDeletionPing`: throw when no study id
was provided, else send an empty `"deletion-request"` ping to the study
namespace. -/
def sendDeletionPing (submitOk : Bool) (rallyId : JSValue)
    (studyAddonId : JSValue) : SendResult :=
  if studyAddonId = JSValue.undef then
    { thrown := some "DataCollection - the deletion-request ping requires a study id"
      calls := []
      logs := [] }
  else
    sendEmptyPing submitOk rallyId "deletion-request" studyAddonId

/-- Source constant `FIELD_MAPPING` of `sendDemographicSurveyPing`, in
insertion order. -/
def FIELD_MAPPING : List (String × String) :=
  [("age", "age"), ("gender", "gender"),
   ("hispanicLatinoSpanishOrigin", "origin"), ("school", "education"),
   ("income", "income"), ("zipCode", "zipCode")]

/-- Body of the `FIELD_MAPPING` loop: if the original field is present in
the data, set `processed[newName] = { [data[originalField]]: true }`. -/
def mapFieldStep (data : JSObj DemoAnswer) (processed : Payload)
    (fm : String × String) : Payload :=
  match objGet data fm.1 with
  | some v => objSet processed fm.2 [(v.toKey, true)]
  | none => processed

/-- The `FIELD_MAPPING` loop of `sendDemographicSurveyPing`, mapping every
field but "race". -/
def mapScalarFields (data : JSObj DemoAnswer) : Payload :=
  FIELD_MAPPING.foldl (mapFieldStep data) []

/-- Embedding of `data.race.reduce((a, b) => ((a[b] = true), a), {})`. -/
def racesReduce (race : List String) : SubMap :=
  race.foldl (fun a b => objSet a b true) []

/-- Payload shaping of `sendDemographicSurveyPing`: map the scalar fields,
then flatten "race" into the "races" map.  Returns `none` when "race" is
bound to a scalar, on which the source's `data.race.reduce` throws a
TypeError. -/
def processDemographic (data : JSObj DemoAnswer) : Option Payload :=
  let processed := mapScalarFields data
  match objGet data "race" with
  | none => some processed
  | some (.multi l) => some (objSet processed "races" (racesReduce l))
  | some (.scalar _) => none

/-- Embedding of `DataCollection.sendDemographicSurveyPing`: shape the
payload and send it as a `"demographic-survey"` ping to `"pioneer-core"`
with the core key. -/
def sendDemographicSurveyPing (submitOk : Bool) (rallyId : JSValue)
    (data : JSObj DemoAnswer) : SendResult :=
  match processDemographic data with
  | some processed =>
      sendPing submitOk rallyId "demographic-survey" processed
        (JSValue.str "pioneer-core") CORE_ENCRYPTION_KEY_ID CORE_ENCRYPTION_JWK
  | none =>
      { thrown := some "TypeError: data.race.reduce is not a function"
        calls := []
        logs := [] }

/-! Basic lemmas about JS-object reads and writes. -/

@[simp]
theorem objGet_nil {A : Type} (k : String) : objGet ([] : JSObj A) k = none := rfl

@[simp]
theorem objGet_cons {A : Type} (k' : String) (v : A) (m : JSObj A) (k : String) :
    objGet ((k', v) :: m) k = if k = k' then some v else objGet m k := rfl

theorem objGet_map_upd {A : Type} (m : JSObj A) (k k' : String) (v : A) :
    objGet (m.map fun p => if p.1 = k then (p.1, v) else p) k' =
      if k' = k then (objGet m k).map (fun _ => v) else objGet m k' := by
  induction m with
  | nil => by_cases h : k' = k <;> simp [h]
  | cons p m ih =>
    obtain ⟨pk, pv⟩ := p
    by_cases h1 : k' = k <;> by_cases h2 : pk = k <;> by_cases h3 : k' = pk <;>
      simp_all

theorem objGet_append_single {A : Type} (m : JSObj A) (k k' : String) (v : A) :
    objGet (m ++ [(k, v)]) k' =
      match objGet m k' with
      | some w => some w
      | none => if k' = k then some v else none := by
  induction m with
  | nil => simp
  | cons p m ih =>
    obtain ⟨pk, pv⟩ := p
    by_cases h : k' = pk <;> simp [h, ih]

/-- Characterization of a property read after a property assignment. -/
theorem objGet_objSet {A : Type} (m : JSObj A) (k k' : String) (v : A) :
    objGet (objSet m k v) k' = if k' = k then some v else objGet m k' := by
  unfold objSet hasKey
  rcases hm : objGet m k with _ | w
  · simp only [hm, Option.isSome_none, Bool.false_eq_true, if_false,
      objGet_append_single]
    rcases hk : objGet m k' with _ | u
    · rfl
    · by_cases h : k' = k
      · subst h; rw [hm] at hk; exact absurd hk (by simp)
      · simp [h]
  · simp only [hm, Option.isSome_some, if_true, objGet_map_upd]
    by_cases h : k' = k <;> simp [h, hm]

theorem objGet_foldl_setTrue (l : List String) (init : SubMap) (k : String) :
    objGet (l.foldl (fun a b => objSet a b true) init) k =
      if k ∈ l then some true else objGet init k := by
  induction l generalizing init with
  | nil => simp
  | cons a l ih =>
    rw [List.foldl_cons, ih]
    by_cases h1 : k ∈ l <;> by_cases h2 : k = a <;>
      simp [h1, h2, objGet_objSet]

/-- The races map binds exactly the categories of the input list, to `true`. -/
theorem objGet_racesReduce (l : List String) (k : String) :
    objGet (racesReduce l) k = if k ∈ l then some true else none := by
  rw [racesReduce, objGet_foldl_setTrue]
  by_cases h : k ∈ l <;> simp [h]

/-- Reading a mapped output field of the scalar-field loop: present in the
output exactly when the original field is present in the data, bound to the
singleton map keyed by the answer. -/
theorem objGet_mapScalarFields (data : JSObj DemoAnswer) (orig newName : String)
    (hmem : (orig, newName) ∈ FIELD_MAPPING) :
    objGet (mapScalarFields data) newName =
      (objGet data orig).map fun v => [(v.toKey, true)] := by
  simp only [FIELD_MAPPING, List.mem_cons, List.not_mem_nil, or_false,
    Prod.mk.injEq] at hmem
  simp only [mapScalarFields, FIELD_MAPPING, List.foldl_cons, List.foldl_nil,
    mapFieldStep]
  rcases h1 : objGet data "age" with _ | v1 <;>
    rcases h2 : objGet data "gender" with _ | v2 <;>
    rcases h3 : objGet data "hispanicLatinoSpanishOrigin" with _ | v3 <;>
    rcases h4 : objGet data "school" with _ | v4 <;>
    rcases h5 : objGet data "income" with _ | v5 <;>
    rcases h6 : objGet data "zipCode" with _ | v6 <;>
    rcases hmem with ⟨ho, hn⟩ | ⟨ho, hn⟩ | ⟨ho, hn⟩ | ⟨ho, hn⟩ | ⟨ho, hn⟩ | ⟨ho, hn⟩ <;>
    subst ho <;> subst hn <;>
    simp [h1, h2, h3, h4, h5, h6, objGet_objSet]

/-- Reading any key that is not a mapped output field of the scalar-field
loop yields nothing. -/
theorem objGet_mapScalarFields_other (data : JSObj DemoAnswer) (k : String)
    (h : ∀ fm ∈ FIELD_MAPPING, k ≠ fm.2) :
    objGet (mapScalarFields data) k = none := by
  simp only [FIELD_MAPPING, List.mem_cons, List.not_mem_nil, or_false,
    forall_eq_or_imp, forall_eq] at h
  obtain ⟨n1, n2, n3, n4, n5, n6⟩ := h
  simp only [mapScalarFields, FIELD_MAPPING, List.foldl_cons, List.foldl_nil,
    mapFieldStep]
  rcases h1 : objGet data "age" with _ | v1 <;>
    rcases h2 : objGet data "gender" with _ | v2 <;>
    rcases h3 : objGet data "hispanicLatinoSpanishOrigin" with _ | v3 <;>
    rcases h4 : objGet data "school" with _ | v4 <;>
    rcases h5 : objGet data "income" with _ | v5 <;>
    rcases h6 : objGet data "zipCode" with _ | v6 <;>
    simp [h1, h2, h3, h4, h5, h6, objGet_objSet, n1, n2, n3, n4, n5, n6]

/-- Full characterization of the shaped demographic payload, for data whose
"race" binding (if any) is an array: the shaping succeeds, mapped fields are
carried over exactly when present, "race" becomes the "races" map, and no
other key appears. -/
theorem processDemographic_spec (data : JSObj DemoAnswer)
    (hrace : ∀ s, objGet data "race" ≠ some (DemoAnswer.scalar s)) :
    ∃ processed, processDemographic data = some processed ∧
      (∀ orig newName, (orig, newName) ∈ FIELD_MAPPING →
        objGet processed newName = (objGet data orig).map fun v => [(v.toKey, true)]) ∧
      (∀ l, objGet data "race" = some (DemoAnswer.multi l) →
        objGet processed "races" = some (racesReduce l)) ∧
      (objGet data "race" = none → objGet processed "races" = none) ∧
      (∀ k, (∀ fm ∈ FIELD_MAPPING, k ≠ fm.2) → k ≠ "races" →
        objGet processed k = none) := by
  have hraces_unmapped : ∀ fm ∈ FIELD_MAPPING, ("races" : String) ≠ fm.2 := by decide
  rcases hr : objGet data "race" with _ | a
  · refine ⟨mapScalarFields data, ?_, ?_, ?_, ?_, ?_⟩
    · simp [processDemographic, hr]
    · intro orig newName hmem; exact objGet_mapScalarFields data orig newName hmem
    · intro l hl; exact Option.noConfusion hl
    · intro _; exact objGet_mapScalarFields_other data "races" hraces_unmapped
    · intro k hk _; exact objGet_mapScalarFields_other data k hk
  · rcases a with s | l
    · exact absurd hr (hrace s)
    · refine ⟨objSet (mapScalarFields data) "races" (racesReduce l), ?_, ?_, ?_, ?_, ?_⟩
      · simp [processDemographic, hr]
      · intro orig newName hmem
        have hne : newName ≠ "races" := by
          simp only [FIELD_MAPPING, List.mem_cons, List.not_mem_nil, or_false,
            Prod.mk.injEq] at hmem
          rcases hmem with ⟨_, hn⟩ | ⟨_, hn⟩ | ⟨_, hn⟩ | ⟨_, hn⟩ | ⟨_, hn⟩ | ⟨_, hn⟩ <;>
            subst hn <;> decide
        rw [objGet_objSet, if_neg hne]
        exact objGet_mapScalarFields data orig newName hmem
      · intro l' hl'
        obtain rfl : l = l' := by simpa using hl'
        rw [objGet_objSet, if_pos rfl]
      · intro h; exact Option.noConfusion h
      · intro k hk hkr
        rw [objGet_objSet, if_neg hkr]
        exact objGet_mapScalarFields_other data k hk

/-- Shared helper: every call made by `sendPing` has `studyName` equal to
`schemaNamespace` (both are built from the same `namespace` argument). -/
theorem sendPing_studyName_eq_schemaNamespace (submitOk : Bool)
    (rallyId : JSValue) (payloadType : String) (payload : Payload)
    (ns : JSValue) (keyId : String) (key : JWK) :
    ∀ c ∈ (sendPing submitOk rallyId payloadType payload ns keyId key).calls,
      c.options.studyName = c.options.schemaNamespace := by
  by_cases h : (rallyId.falsy || !rallyId.isString) = true <;>
    simp [sendPing, h]


/-! Claim theorems. -/

/-- C1: for every non-empty string participant id `p`, every kind label,
payload, namespace, key id and key, `sendPing` invokes the external
submission primitive with the constant outer type string `"pioneer-study"`
and an options record with `schemaName` equal to the kind label,
`schemaNamespace` equal to the namespace, `schemaVersion` equal to 1, the
add-participant-id field (`addPioneerId` in the source) set to `true` and
the override-participant-id field (`overridePioneerId`) set to `p`. -/
theorem c1_sendPing_builds_options (submitOk : Bool) (p : String) (hp : p ≠ "")
    (payloadType : String) (payload : Payload) (ns : JSValue) (keyId : String)
    (key : JWK) :
    (sendPing submitOk (JSValue.str p) payloadType payload ns keyId key).calls.length = 1 ∧
    ∀ c ∈ (sendPing submitOk (JSValue.str p) payloadType payload ns keyId key).calls,
      c.pingType = "pioneer-study" ∧
      c.options.schemaName = payloadType ∧
      c.options.schemaNamespace = ns ∧
      c.options.schemaVersion = 1 ∧
      c.options.addPioneerId = true ∧
      c.options.overridePioneerId = JSValue.str p ∧
      c.payload = payload := by
  have hb : (p == "") = false := beq_eq_false_iff_ne.mpr hp
  simp [sendPing, JSValue.falsy, JSValue.isString, hb]

/-- Witness for C1 at a concrete input. -/
theorem c1_sendPing_builds_options_witness :
    (sendPing true (JSValue.str "id0") "kind0" [] (JSValue.str "ns0") "k0"
        CORE_ENCRYPTION_JWK).calls.length = 1 ∧
    ∀ c ∈ (sendPing true (JSValue.str "id0") "kind0" [] (JSValue.str "ns0") "k0"
        CORE_ENCRYPTION_JWK).calls,
      c.pingType = "pioneer-study" ∧
      c.options.schemaName = "kind0" ∧
      c.options.schemaNamespace = JSValue.str "ns0" ∧
      c.options.schemaVersion = 1 ∧
      c.options.addPioneerId = true ∧
      c.options.overridePioneerId = JSValue.str "id0" ∧
      c.payload = [] :=
  c1_sendPing_builds_options true "id0" (by decide) "kind0" [] (JSValue.str "ns0")
    "k0" CORE_ENCRYPTION_JWK

/-- C2: `sendPing` throws exactly when the participant (Rally) id is the
empty string, another falsy value, or not of string type; whenever it
throws, no call to the external submission primitive is made. -/
theorem c2_sendPing_validation (submitOk : Bool) (rallyId : JSValue)
    (payloadType : String) (payload : Payload) (ns : JSValue) (keyId : String)
    (key : JWK) :
    ((sendPing submitOk rallyId payloadType payload ns keyId key).thrown.isSome ↔
      (rallyId = JSValue.str "" ∨ rallyId.falsy = true ∨ rallyId.isString = false)) ∧
    ((sendPing submitOk rallyId payloadType payload ns keyId key).thrown.isSome →
      (sendPing submitOk rallyId payloadType payload ns keyId key).calls = []) := by
  rcases rallyId with s | n | b | _ | _
  · by_cases hs : s = "" <;>
      simp [sendPing, JSValue.falsy, JSValue.isString, hs]
  · simp [sendPing, JSValue.falsy, JSValue.isString]
  · simp [sendPing, JSValue.falsy, JSValue.isString]
  · simp [sendPing, JSValue.falsy, JSValue.isString]
  · simp [sendPing, JSValue.falsy, JSValue.isString]

/-- C3: `sendDeletionPing` with no study id throws for every participant id
and makes no external call; with a participant id that is a non-empty string
and a provided study id `s`, it dispatches exactly one ping with
`schemaName = "deletion-request"`, `schemaNamespace = s` and an empty
payload. -/
theorem c3_sendDeletionPing (submitOk : Bool) (rallyId : JSValue)
    (p s : String) (hp : p ≠ "") :
    ((sendDeletionPing submitOk rallyId JSValue.undef).thrown =
        some "DataCollection - the deletion-request ping requires a study id" ∧
      (sendDeletionPing submitOk rallyId JSValue.undef).calls = []) ∧
    ((sendDeletionPing submitOk (JSValue.str p) (JSValue.str s)).thrown = none ∧
      (sendDeletionPing submitOk (JSValue.str p) (JSValue.str s)).calls.length = 1 ∧
      ∀ c ∈ (sendDeletionPing submitOk (JSValue.str p) (JSValue.str s)).calls,
        c.options.schemaName = "deletion-request" ∧
        c.options.schemaNamespace = JSValue.str s ∧
        c.payload = []) := by
  have hb : (p == "") = false := beq_eq_false_iff_ne.mpr hp
  constructor
  · simp [sendDeletionPing]
  · simp [sendDeletionPing, sendEmptyPing, sendPing, JSValue.falsy,
      JSValue.isString, hb]

/-- Witness for C3 at a concrete input. -/
theorem c3_sendDeletionPing_witness :
    ((sendDeletionPing true (JSValue.str "p3") JSValue.undef).thrown =
        some "DataCollection - the deletion-request ping requires a study id" ∧
      (sendDeletionPing true (JSValue.str "p3") JSValue.undef).calls = []) ∧
    ((sendDeletionPing true (JSValue.str "p3") (JSValue.str "study3")).thrown = none ∧
      (sendDeletionPing true (JSValue.str "p3") (JSValue.str "study3")).calls.length = 1 ∧
      ∀ c ∈ (sendDeletionPing true (JSValue.str "p3") (JSValue.str "study3")).calls,
        c.options.schemaName = "deletion-request" ∧
        c.options.schemaNamespace = JSValue.str "study3" ∧
        c.payload = []) :=
  c3_sendDeletionPing true (JSValue.str "p3") "p3" "study3" (by decide)

/-- C5: key selection in `_sendEmptyPing` is a pure function of the
namespace with no error path: namespace `"pioneer-core"` dispatches with key
id `"core"` (`CORE_ENCRYPTION_KEY_ID`) and the fixed core P-256 JWK, and
every other namespace dispatches with key id `"discarded"` and the fixed
discard P-256 JWK; `_sendEmptyPing` takes no key parameter, so no caller
override is possible. -/
theorem c5_key_selection (submitOk : Bool) (p : String) (hp : p ≠ "")
    (payloadType : String) (ns : JSValue) :
    (sendEmptyPing submitOk (JSValue.str p) payloadType ns).calls.length = 1 ∧
    (∀ c ∈ (sendEmptyPing submitOk (JSValue.str p) payloadType ns).calls,
      if ns = JSValue.str "pioneer-core" then
        c.options.encryptionKeyId = CORE_ENCRYPTION_KEY_ID ∧
        c.options.publicKey = CORE_ENCRYPTION_JWK
      else
        c.options.encryptionKeyId = "discarded" ∧
        c.options.publicKey = DISCARD_ENCRYPTION_JWK) ∧
    CORE_ENCRYPTION_KEY_ID = "core" ∧
    CORE_ENCRYPTION_JWK.crv = "P-256" ∧
    DISCARD_ENCRYPTION_JWK.crv = "P-256" := by
  have hb : (p == "") = false := beq_eq_false_iff_ne.mpr hp
  by_cases hns : ns = JSValue.str "pioneer-core" <;>
    simp [sendEmptyPing, sendPing, JSValue.falsy, JSValue.isString, hb, hns,
      CORE_ENCRYPTION_KEY_ID, CORE_ENCRYPTION_JWK, DISCARD_ENCRYPTION_JWK]

/-- Witness for C5 at concrete inputs. -/
theorem c5_key_selection_witness :
    (sendEmptyPing true (JSValue.str "p5") "t5" (JSValue.str "study5")).calls.length = 1 ∧
    (∀ c ∈ (sendEmptyPing true (JSValue.str "p5") "t5" (JSValue.str "study5")).calls,
      if JSValue.str "study5" = JSValue.str "pioneer-core" then
        c.options.encryptionKeyId = CORE_ENCRYPTION_KEY_ID ∧
        c.options.publicKey = CORE_ENCRYPTION_JWK
      else
        c.options.encryptionKeyId = "discarded" ∧
        c.options.publicKey = DISCARD_ENCRYPTION_JWK) ∧
    CORE_ENCRYPTION_KEY_ID = "core" ∧
    CORE_ENCRYPTION_JWK.crv = "P-256" ∧
    DISCARD_ENCRYPTION_JWK.crv = "P-256" :=
  c5_key_selection true "p5" (by decide) "t5" (JSValue.str "study5")

/-- C8: for every input that passes participant-id validation, `sendPing`
completes without throwing even when the external submission primitive
reports a failure: the error is logged via the catch handler, never
rethrown, and the primitive is invoked exactly once. -/
theorem c8_transmission_error_swallowed (rallyId : JSValue)
    (payloadType : String) (payload : Payload) (ns : JSValue) (keyId : String)
    (key : JWK) (hvalid : rallyId.falsy = false ∧ rallyId.isString = true) :
    (sendPing false rallyId payloadType payload ns keyId key).thrown = none ∧
    (sendPing false rallyId payloadType payload ns keyId key).calls.length = 1 ∧
    (sendPing false rallyId payloadType payload ns keyId key).logs = [LogEntry.error] := by
  obtain ⟨h1, h2⟩ := hvalid
  simp [sendPing, h1, h2]

/-- Witness for C8 at a concrete input. -/
theorem c8_transmission_error_swallowed_witness :
    (sendPing false (JSValue.str "p8") "t8" [] (JSValue.str "ns8") "k8"
        CORE_ENCRYPTION_JWK).thrown = none ∧
    (sendPing false (JSValue.str "p8") "t8" [] (JSValue.str "ns8") "k8"
        CORE_ENCRYPTION_JWK).calls.length = 1 ∧
    (sendPing false (JSValue.str "p8") "t8" [] (JSValue.str "ns8") "k8"
        CORE_ENCRYPTION_JWK).logs = [LogEntry.error] :=
  c8_transmission_error_swallowed (JSValue.str "p8") "t8" [] (JSValue.str "ns8")
    "k8" CORE_ENCRYPTION_JWK (by constructor <;> rfl)

/-- C9: invariant of every dispatch operation: in every options record
handed to the external submission primitive, `studyName` equals
`schemaNamespace`, for every ping kind and every input. -/
theorem c9_studyName_schemaNamespace_invariant (submitOk : Bool)
    (rallyId : JSValue) (payloadType : String) (payload : Payload)
    (ns : JSValue) (keyId : String) (key : JWK) (sid : JSValue)
    (data : JSObj DemoAnswer) :
    (∀ c ∈ (sendPing submitOk rallyId payloadType payload ns keyId key).calls,
      c.options.studyName = c.options.schemaNamespace) ∧
    (∀ c ∈ (sendEmptyPing submitOk rallyId payloadType ns).calls,
      c.options.studyName = c.options.schemaNamespace) ∧
    (∀ c ∈ (sendEnrollmentPing submitOk rallyId sid).calls,
      c.options.studyName = c.options.schemaNamespace) ∧
    (∀ c ∈ (sendDeletionPing submitOk rallyId sid).calls,
      c.options.studyName = c.options.schemaNamespace) ∧
    (∀ c ∈ (sendDemographicSurveyPing submitOk rallyId data).calls,
      c.options.studyName = c.options.schemaNamespace) := by
  have hempty : ∀ (b : Bool) (r : JSValue) (t : String) (n : JSValue),
      ∀ c ∈ (sendEmptyPing b r t n).calls,
        c.options.studyName = c.options.schemaNamespace := by
    intro b r t n
    rw [sendEmptyPing]
    exact sendPing_studyName_eq_schemaNamespace b r t [] n _ _
  refine ⟨sendPing_studyName_eq_schemaNamespace _ _ _ _ _ _ _,
    hempty _ _ _ _, ?_, ?_, ?_⟩
  · rw [sendEnrollmentPing]
    by_cases h : sid ≠ JSValue.undef
    · rw [if_pos h]; exact hempty _ _ _ _
    · rw [if_neg h]; exact hempty _ _ _ _
  · rw [sendDeletionPing]
    by_cases h : sid = JSValue.undef
    · rw [if_pos h]; intro c hc; exact absurd hc (by simp)
    · rw [if_neg h]; exact hempty _ _ _ _
  · rw [sendDemographicSurveyPing]
    rcases hd : processDemographic data with _ | processed
    · intro c hc; exact absurd hc (by simp)
    · exact sendPing_studyName_eq_schemaNamespace _ _ _ _ _ _ _

/-- C4 counterexample: the study id `"pioneer-core"` is a non-empty string,
yet `sendEnrollmentPing` with that study id dispatches with encryption key
id `"core"`, not `"discarded"` as the claim states for every non-empty
study id. -/
theorem c4_counterexample :
    ("pioneer-core" : String) ≠ "" ∧
    ¬ ∀ c ∈ (sendEnrollmentPing true (JSValue.str "p4")
        (JSValue.str "pioneer-core")).calls,
        c.options.encryptionKeyId = "discarded" := by
  refine ⟨by decide, ?_⟩
  intro h
  have h1 := h { pingType := "pioneer-study"
                 payload := []
                 options :=
                  { studyName := JSValue.str "pioneer-core"
                    addPioneerId := true
                    overridePioneerId := JSValue.str "p4"
                    encryptionKeyId := "core"
                    publicKey := CORE_ENCRYPTION_JWK
                    schemaName := "pioneer-enrollment"
                    schemaVersion := 1
                    schemaNamespace := JSValue.str "pioneer-core" } }
    (by rw [sendEnrollmentPing, if_pos (by decide), sendEmptyPing,
          if_pos rfl, sendPing, if_neg (by decide)]; exact List.mem_singleton.mpr rfl)
  exact absurd h1 (by decide)

/-- C4 amended: `sendEnrollmentPing(p)` without a study id dispatches with
`schemaName = "pioneer-enrollment"`, `schemaNamespace = "pioneer-core"`,
encryption key id `"core"` and empty payload; for every non-empty study id
`s` other than `"pioneer-core"`, `sendEnrollmentPing(p, s)` dispatches with
`schemaNamespace = s`, encryption key id `"discarded"` and empty payload. -/
theorem c4_sendEnrollmentPing_amended (submitOk : Bool) (p s : String)
    (hp : p ≠ "") (hs : s ≠ "") (hsc : s ≠ "pioneer-core") :
    ((sendEnrollmentPing submitOk (JSValue.str p) JSValue.undef).calls.length = 1 ∧
      ∀ c ∈ (sendEnrollmentPing submitOk (JSValue.str p) JSValue.undef).calls,
        c.options.schemaName = "pioneer-enrollment" ∧
        c.options.schemaNamespace = JSValue.str "pioneer-core" ∧
        c.options.encryptionKeyId = "core" ∧
        c.options.publicKey = CORE_ENCRYPTION_JWK ∧
        c.payload = []) ∧
    ((sendEnrollmentPing submitOk (JSValue.str p) (JSValue.str s)).calls.length = 1 ∧
      ∀ c ∈ (sendEnrollmentPing submitOk (JSValue.str p) (JSValue.str s)).calls,
        c.options.schemaName = "pioneer-enrollment" ∧
        c.options.schemaNamespace = JSValue.str s ∧
        c.options.encryptionKeyId = "discarded" ∧
        c.options.publicKey = DISCARD_ENCRYPTION_JWK ∧
        c.payload = []) := by
  have hb : (p == "") = false := beq_eq_false_iff_ne.mpr hp
  constructor
  · simp [sendEnrollmentPing, sendEmptyPing, sendPing, JSValue.falsy,
      JSValue.isString, hb, CORE_ENCRYPTION_KEY_ID]
  · simp [sendEnrollmentPing, sendEmptyPing, sendPing, JSValue.falsy,
      JSValue.isString, hb, hsc]

/-- Witness for the amended C4 at concrete inputs. -/
theorem c4_sendEnrollmentPing_amended_witness :
    ((sendEnrollmentPing true (JSValue.str "p4w") JSValue.undef).calls.length = 1 ∧
      ∀ c ∈ (sendEnrollmentPing true (JSValue.str "p4w") JSValue.undef).calls,
        c.options.schemaName = "pioneer-enrollment" ∧
        c.options.schemaNamespace = JSValue.str "pioneer-core" ∧
        c.options.encryptionKeyId = "core" ∧
        c.options.publicKey = CORE_ENCRYPTION_JWK ∧
        c.payload = []) ∧
    ((sendEnrollmentPing true (JSValue.str "p4w") (JSValue.str "study4")).calls.length = 1 ∧
      ∀ c ∈ (sendEnrollmentPing true (JSValue.str "p4w") (JSValue.str "study4")).calls,
        c.options.schemaName = "pioneer-enrollment" ∧
        c.options.schemaNamespace = JSValue.str "study4" ∧
        c.options.encryptionKeyId = "discarded" ∧
        c.options.publicKey = DISCARD_ENCRYPTION_JWK ∧
        c.payload = []) :=
  c4_sendEnrollmentPing_amended true "p4w" "study4" (by decide) (by decide)
    (by decide)

/-- C10 counterexample: the provided study id `"pioneer-core"` (a value
other than undefined) is used verbatim as the namespace, but it selects the
`"core"` key, not the `"discarded"` key the claim asserts for every
provided value. -/
theorem c10_counterexample :
    JSValue.str "pioneer-core" ≠ JSValue.undef ∧
    (∀ c ∈ (sendEnrollmentPing true (JSValue.str "r10")
        (JSValue.str "pioneer-core")).calls,
        c.options.schemaNamespace = JSValue.str "pioneer-core") ∧
    ¬ ∀ c ∈ (sendEnrollmentPing true (JSValue.str "r10")
        (JSValue.str "pioneer-core")).calls,
        c.options.encryptionKeyId = "discarded" := by
  refine ⟨by decide, ?_, ?_⟩
  · intro c hc
    rw [sendEnrollmentPing, if_pos (by decide), sendEmptyPing, if_pos rfl,
      sendPing, if_neg (by decide)] at hc
    obtain rfl := List.mem_singleton.mp hc
    rfl
  · intro h
    have h1 := h { pingType := "pioneer-study"
                   payload := []
                   options :=
                    { studyName := JSValue.str "pioneer-core"
                      addPioneerId := true
                      overridePioneerId := JSValue.str "r10"
                      encryptionKeyId := "core"
                      publicKey := CORE_ENCRYPTION_JWK
                      schemaName := "pioneer-enrollment"
                      schemaVersion := 1
                      schemaNamespace := JSValue.str "pioneer-core" } }
      (by rw [sendEnrollmentPing, if_pos (by decide), sendEmptyPing,
            if_pos rfl, sendPing, if_neg (by decide)]
          exact List.mem_singleton.mpr rfl)
    exact absurd h1 (by decide)

/-- C10 amended: `sendEnrollmentPing` defaults the routing namespace to
`"pioneer-core"` only when the study id argument is exactly
omitted/undefined; any other provided value, including the empty string or
null, is used verbatim as the namespace and never replaced by
`"pioneer-core"`, and it selects the `"discarded"` key whenever the
provided value is not the string `"pioneer-core"` itself. -/
theorem c10_sendEnrollmentPing_default_amended (submitOk : Bool)
    (rallyId sid : JSValue) (h : sid ≠ JSValue.undef) :
    (∀ c ∈ (sendEnrollmentPing submitOk rallyId sid).calls,
      c.options.schemaNamespace = sid ∧
      (sid ≠ JSValue.str "pioneer-core" → c.options.encryptionKeyId = "discarded")) ∧
    (∀ c ∈ (sendEnrollmentPing submitOk rallyId JSValue.undef).calls,
      c.options.schemaNamespace = JSValue.str "pioneer-core") := by
  constructor
  · intro c hc
    rw [sendEnrollmentPing, if_pos h, sendEmptyPing] at hc
    by_cases hv : (rallyId.falsy || !rallyId.isString) = true
    · rw [sendPing, if_pos hv] at hc
      exact absurd hc (by simp)
    · rw [sendPing, if_neg hv] at hc
      obtain rfl := List.mem_singleton.mp hc
      by_cases hsc : sid = JSValue.str "pioneer-core"
      · exact ⟨rfl, fun hne => absurd hsc hne⟩
      · refine ⟨rfl, fun _ => ?_⟩
        simp only [if_neg hsc]
  · intro c hc
    rw [sendEnrollmentPing, if_neg (by simp), sendEmptyPing] at hc
    by_cases hv : (rallyId.falsy || !rallyId.isString) = true
    · rw [sendPing, if_pos hv] at hc
      exact absurd hc (by simp)
    · rw [sendPing, if_neg hv] at hc
      obtain rfl := List.mem_singleton.mp hc
      rfl

/-- Witness for the amended C10 at concrete inputs (a null study id). -/
theorem c10_sendEnrollmentPing_default_amended_witness :
    (∀ c ∈ (sendEnrollmentPing true (JSValue.str "r10w") JSValue.null).calls,
      c.options.schemaNamespace = JSValue.null ∧
      (JSValue.null ≠ JSValue.str "pioneer-core" →
        c.options.encryptionKeyId = "discarded")) ∧
    (∀ c ∈ (sendEnrollmentPing true (JSValue.str "r10w") JSValue.undef).calls,
      c.options.schemaNamespace = JSValue.str "pioneer-core") :=
  c10_sendEnrollmentPing_default_amended true (JSValue.str "r10w") JSValue.null
    (by decide)

/-- C6: for every non-empty participant id and every answers record whose
"race" binding (if any) is an array, `sendDemographicSurveyPing` dispatches
exactly one ping routed to namespace `"pioneer-core"` with the core key;
the payload binds each mapped field name exactly when the original field is
present in the input, to the singleton map keying the answer to `true`,
binds `"races"` exactly when "race" is present, and binds no other key. -/
theorem c6_sendDemographicSurveyPing (submitOk : Bool) (p : String)
    (hp : p ≠ "") (data : JSObj DemoAnswer)
    (hrace : ∀ s, objGet data "race" ≠ some (DemoAnswer.scalar s)) :
    (sendDemographicSurveyPing submitOk (JSValue.str p) data).calls.length = 1 ∧
    ∀ c ∈ (sendDemographicSurveyPing submitOk (JSValue.str p) data).calls,
      c.options.schemaName = "demographic-survey" ∧
      c.options.schemaNamespace = JSValue.str "pioneer-core" ∧
      c.options.encryptionKeyId = CORE_ENCRYPTION_KEY_ID ∧
      c.options.publicKey = CORE_ENCRYPTION_JWK ∧
      (∀ orig newName, (orig, newName) ∈ FIELD_MAPPING →
        objGet c.payload newName = (objGet data orig).map fun v => [(v.toKey, true)]) ∧
      (∀ l, objGet data "race" = some (DemoAnswer.multi l) →
        objGet c.payload "races" = some (racesReduce l)) ∧
      (objGet data "race" = none → objGet c.payload "races" = none) ∧
      (∀ k, (∀ fm ∈ FIELD_MAPPING, k ≠ fm.2) → k ≠ "races" →
        objGet c.payload k = none) := by
  have hb : (p == "") = false := beq_eq_false_iff_ne.mpr hp
  obtain ⟨processed, hproc, hmapped, hraces, hnorace, hother⟩ :=
    processDemographic_spec data hrace
  have hres : (sendDemographicSurveyPing submitOk (JSValue.str p) data).calls =
      [{ pingType := "pioneer-study"
         payload := processed
         options :=
          { studyName := JSValue.str "pioneer-core"
            addPioneerId := true
            overridePioneerId := JSValue.str p
            encryptionKeyId := CORE_ENCRYPTION_KEY_ID
            publicKey := CORE_ENCRYPTION_JWK
            schemaName := "demographic-survey"
            schemaVersion := 1
            schemaNamespace := JSValue.str "pioneer-core" } }] := by
    rw [sendDemographicSurveyPing, hproc]
    simp [sendPing, JSValue.falsy, JSValue.isString, hb]
  rw [hres]
  refine ⟨rfl, ?_⟩
  intro c hc
  obtain rfl := List.mem_singleton.mp hc
  exact ⟨rfl, rfl, rfl, rfl, hmapped, hraces, hnorace, hother⟩

/-- Witness for C6 at the end-to-end example inputs of the spec. -/
theorem c6_sendDemographicSurveyPing_witness :
    (sendDemographicSurveyPing true (JSValue.str "R1")
      [("age", DemoAnswer.scalar "25-34"),
       ("race", DemoAnswer.multi ["white", "asian"])]).calls.length = 1 ∧
    ∀ c ∈ (sendDemographicSurveyPing true (JSValue.str "R1")
      [("age", DemoAnswer.scalar "25-34"),
       ("race", DemoAnswer.multi ["white", "asian"])]).calls,
      c.options.schemaName = "demographic-survey" ∧
      c.options.schemaNamespace = JSValue.str "pioneer-core" ∧
      c.options.encryptionKeyId = CORE_ENCRYPTION_KEY_ID ∧
      c.options.publicKey = CORE_ENCRYPTION_JWK ∧
      (∀ orig newName, (orig, newName) ∈ FIELD_MAPPING →
        objGet c.payload newName =
          (objGet [("age", DemoAnswer.scalar "25-34"),
                   ("race", DemoAnswer.multi ["white", "asian"])] orig).map
            fun v => [(v.toKey, true)]) ∧
      (∀ l, objGet [("age", DemoAnswer.scalar "25-34"),
              ("race", DemoAnswer.multi ["white", "asian"])] "race" =
            some (DemoAnswer.multi l) →
        objGet c.payload "races" = some (racesReduce l)) ∧
      (objGet [("age", DemoAnswer.scalar "25-34"),
          ("race", DemoAnswer.multi ["white", "asian"])] "race" = none →
        objGet c.payload "races" = none) ∧
      (∀ k, (∀ fm ∈ FIELD_MAPPING, k ≠ fm.2) → k ≠ "races" →
        objGet c.payload k = none) :=
  c6_sendDemographicSurveyPing true "R1" (by decide)
    [("age", DemoAnswer.scalar "25-34"),
     ("race", DemoAnswer.multi ["white", "asian"])]
    (by intro s h; simp [objGet] at h)

/-- C7: race shaping is order-independent and duplicate-collapsing: two
race lists with the same member set shape to extensionally equal races
maps, in which every selected category is bound to `true` and no other key
is bound. -/
theorem c7_races_order_independent (l1 l2 : List String) (k : String)
    (h : ∀ s, s ∈ l1 ↔ s ∈ l2) :
    objGet (racesReduce l1) k = objGet (racesReduce l2) k ∧
    (objGet (racesReduce l1) k = some true ↔ k ∈ l1) ∧
    (k ∉ l1 → objGet (racesReduce l1) k = none) := by
  rw [objGet_racesReduce, objGet_racesReduce]
  refine ⟨?_, ?_, ?_⟩
  · by_cases hk : k ∈ l1
    · rw [if_pos hk, if_pos ((h k).mp hk)]
    · rw [if_neg hk, if_neg (fun hh => hk ((h k).mpr hh))]
  · by_cases hk : k ∈ l1 <;> simp [hk]
  · intro hk; rw [if_neg hk]

/-- Witness for C7 at the spec's example: `["a","b"]` against `["b","a"]`,
read at category "a". -/
theorem c7_races_order_independent_witness :
    objGet (racesReduce ["a", "b"]) "a" = objGet (racesReduce ["b", "a"]) "a" ∧
    (objGet (racesReduce ["a", "b"]) "a" = some true ↔ "a" ∈ ["a", "b"]) ∧
    ("a" ∉ ["a", "b"] → objGet (racesReduce ["a", "b"]) "a" = none) :=
  c7_races_order_independent ["a", "b"] ["b", "a"] "a"
    (by intro s; simp [List.mem_cons]; tauto)
